import Mathlib

/-!
Verification development for the secret-resolution engine of a Drone
secrets plugin backed by 1Password Connect.

The engine is embedded shallowly:

* Go strings are modelled as lists of characters (`Str`); the byte-level
  escaping helpers of the REST client are modelled over lists of naturals
  below 256 (`Bytes`), matching Go's byte-oriented `strings.Replace` and
  `url.PathEscape`.
* `strings.EqualFold` is modelled as case folding that maps the ASCII
  uppercase letters to lowercase and leaves every other code point fixed
  (the full Unicode simple-folding table is out of scope; all labels and
  keywords involved here are ASCII).
* `strings.TrimSpace` is modelled with the full Unicode `White_Space`
  class used by Go's `unicode.IsSpace`.
* Fallible Go functions returning `(T, error)` become `Except SecErr T`,
  with one `SecErr` constructor per distinct `fmt.Errorf` site.
* The REST client's network side is abstracted: the lookup helpers take
  the decoded response (or transport error) as an argument, and the
  resolution engine `Find` takes the three client operations as an
  oracle record.
-/

set_option maxHeartbeats 1000000

namespace DroneOnePassword

/-- Go strings, modelled as lists of characters. -/
abbrev Str := List Char

/-- Byte strings, for the byte-level escaping helpers. -/
abbrev Bytes := List Nat

/-- Convert a Lean string literal into the `Str` model. -/
def goStr (s : String) : Str := s.data

/-- Unicode `White_Space` test, as used by Go's `strings.TrimSpace`
(`unicode.IsSpace`). -/
def goIsSpace (c : Char) : Bool :=
  let n := c.toNat
  decide ((9 ≤ n ∧ n ≤ 13) ∨ n = 32 ∨ n = 133 ∨ n = 160 ∨ n = 5760 ∨
    (8192 ≤ n ∧ n ≤ 8202) ∨ n = 8232 ∨ n = 8233 ∨ n = 8239 ∨ n = 8287 ∨
    n = 12288)

/-- Model of `strings.TrimSpace`: drop leading and trailing white space. -/
def trimSpace (s : Str) : Str :=
  ((s.dropWhile goIsSpace).reverse.dropWhile goIsSpace).reverse

/-- ASCII case folding used to model `strings.EqualFold`: uppercase ASCII
letters map to their lowercase code point, everything else is fixed. -/
def foldAscii (c : Char) : Nat :=
  if 65 ≤ c.toNat ∧ c.toNat ≤ 90 then c.toNat + 32 else c.toNat

/-- Model of `strings.EqualFold`, modelled as equality after ASCII case folding. -/
def equalFold (s t : Str) : Bool :=
  s.map foldAscii == t.map foldAscii

/-- Split a list at the first occurrence of `c`: returns the part before
and the part after, or `none` when `c` does not occur.  This is the
single-separator search underlying Go's `strings.SplitN`. -/
def breakAtChar (c : Char) : List Char → Option (List Char × List Char)
  | [] => none
  | x :: xs =>
    if x = c then some ([], xs)
    else (breakAtChar c xs).map (fun p => (x :: p.1, p.2))

/-- Model of `strings.SplitN(s, sep, 3)` for a one-character separator: at most
three components, the last one holding the untouched remainder. -/
def splitN3 (c : Char) (s : List Char) : List (List Char) :=
  match breakAtChar c s with
  | none => [s]
  | some (l, r) =>
    match breakAtChar c r with
    | none => [l, r]
    | some (l2, r2) => [l, l2, r2]

/-! ## Data model (types.go) -/

/-- Model of `itemFieldSection`: weak reference from a field to its section. -/
structure itemFieldSection where
  id : Str
deriving DecidableEq, Repr

/-- Model of `itemField` (the `section` back-reference is called `sectionRef` here
because `section` is a Lean keyword). -/
structure itemField where
  id : Str
  label : Str
  value : Str
  purpose : Str
  type : Str
  sectionRef : Option itemFieldSection
deriving DecidableEq, Repr

/-- Model of `itemSection`. -/
structure itemSection where
  id : Str
  label : Str
deriving DecidableEq, Repr

/-- Model of `fullItem`. -/
structure fullItem where
  id : Str
  title : Str
  fields : List itemField
  sections : List itemSection
  notesPlain : Str
deriving DecidableEq, Repr

/-- Model of `vaultSummary`. -/
structure vaultSummary where
  id : Str
  name : Str
deriving DecidableEq, Repr

/-- Model of `itemSummary`. -/
structure itemSummary where
  id : Str
  title : Str
deriving DecidableEq, Repr

/-- Model of `secret.Request`, restricted to the two fields the engine reads. -/
structure secretRequest where
  name : Str
  path : Str
deriving DecidableEq, Repr

/-- Model of `drone.Secret`, restricted to the fields the engine writes. -/
structure droneSecret where
  name : Str
  data : Str
  pullRequest : Bool
deriving DecidableEq, Repr

/-- Error taxonomy: one constructor per distinct error site in the
source (`errors.New` / `fmt.Errorf`), carrying the identifiers that the
corresponding format string interpolates. -/
inductive SecErr where
  | nilRequest
  | emptyName
  | malformedPath
  | emptyVaultOrItem
  | vaultNotFound (name : Str)
  | ambiguousVault (name : Str)
  | itemNotFound (title vaultID : Str)
  | ambiguousItem (title vaultID : Str)
  | noNotes (title : Str)
  | multiplePasswords (title : Str)
  | fieldNotFound (label title : Str)
  | ambiguousLabel (label title : Str)
  | sectionNotFound (sectionLabel title : Str)
  | fieldNotFoundInSection (label sectionLabel : Str)
  | duplicatedField (label sectionLabel : Str)
  | storeAPIError (statusCode : Nat) (message : Str)
  | lookupVault (name : Str) (e : SecErr)
  | lookupItem (title : Str) (e : SecErr)
  | loadItem (title : Str) (e : SecErr)
deriving DecidableEq, Repr

/-! ## Path parsing and field selection (plugin.go) -/

/-- Model of `parseSecretPath`: split on `/` into at most 3 components; fewer
than 2 components, or an empty vault/item after trimming, is an error;
the optional third component is the trimmed field selector. -/
def parseSecretPath (path : Str) : Except SecErr (Str × Str × Str) :=
  match splitN3 '/' path with
  | [a, b] =>
    let vault := trimSpace a
    let item := trimSpace b
    if vault.isEmpty || item.isEmpty then .error .emptyVaultOrItem
    else .ok (vault, item, [])
  | [a, b, c] =>
    let vault := trimSpace a
    let item := trimSpace b
    if vault.isEmpty || item.isEmpty then .error .emptyVaultOrItem
    else .ok (vault, item, trimSpace c)
  | _ => .error .malformedPath

/-- Model of `splitQualifiedLabel`: `strings.SplitN(label, "/", 2)`; one component
means no section part, otherwise both parts are trimmed. -/
def splitQualifiedLabel (label : Str) : Str × Str :=
  match breakAtChar '/' label with
  | none => ([], trimSpace label)
  | some (a, b) => (trimSpace a, trimSpace b)

/-- The fields collected by `findFieldByLabel`'s loop: label matches
case-insensitively and the value is non-empty. -/
def labelMatches (item : fullItem) (fieldLabel : Str) : List itemField :=
  item.fields.filter (fun f => equalFold f.label fieldLabel && !f.value.isEmpty)

/-- Model of `findFieldByLabel`: trim the label, collect matches, demand exactly
one. -/
def findFieldByLabel (item : fullItem) (label : Str) : Except SecErr Str :=
  let fieldLabel := trimSpace label
  match labelMatches item fieldLabel with
  | [] => .error (.fieldNotFound fieldLabel item.title)
  | [f] => .ok f.value
  | _ => .error (.ambiguousLabel fieldLabel item.title)

/-- The values collected by `defaultPassword`'s loop: purpose is
case-insensitively `PASSWORD` and the value is non-empty. -/
def defaultPasswordMatches (item : fullItem) : List Str :=
  (item.fields.filter
    (fun f => equalFold f.purpose (goStr "PASSWORD") && !f.value.isEmpty)).map
    (fun f => f.value)

/-- Model of `defaultPassword`: exactly one purpose-tagged password returns it,
none falls back to the label `password`, several is an error. -/
def defaultPassword (item : fullItem) : Except SecErr Str :=
  match defaultPasswordMatches item with
  | [v] => .ok v
  | [] => findFieldByLabel item (goStr "password")
  | _ => .error (.multiplePasswords item.title)

/-- The ids collected by `findFieldInSection`'s first loop: every section
whose label case-insensitively equals the requested section label. -/
def sectionMatchIDs (item : fullItem) (sectionLabel : Str) : List Str :=
  (item.sections.filter (fun s => equalFold s.label sectionLabel)).map
    (fun s => s.id)

/-- The fields collected by `findFieldInSection`'s second loop: the field
has a section reference, the referenced id is among the matching section
ids, the label matches case-insensitively and the value is non-empty. -/
def sectionFieldMatches (item : fullItem) (sectionLabel fieldLabel : Str) :
    List itemField :=
  item.fields.filter (fun f =>
    match f.sectionRef with
    | none => false
    | some sec =>
      decide (sec.id ∈ sectionMatchIDs item sectionLabel) &&
        equalFold f.label fieldLabel && !f.value.isEmpty)

/-- Model of `findFieldInSection`: no matching section is an error; otherwise
demand exactly one matching field in the union of the matching
sections. -/
def findFieldInSection (item : fullItem) (sectionLabel fieldLabel : Str) :
    Except SecErr Str :=
  if (sectionMatchIDs item sectionLabel).isEmpty then
    .error (.sectionNotFound sectionLabel item.title)
  else
    match sectionFieldMatches item sectionLabel fieldLabel with
    | [] => .error (.fieldNotFoundInSection fieldLabel sectionLabel)
    | [f] => .ok f.value
    | _ => .error (.duplicatedField fieldLabel sectionLabel)

/-- Model of `selectFieldValue`: dispatch on the selector — empty means default
password, `notes`/`notesPlain` mean the plain notes, otherwise an
optionally section-qualified label lookup. -/
def selectFieldValue (item : fullItem) (selector : Str) : Except SecErr Str :=
  if selector.isEmpty then defaultPassword item
  else if equalFold selector (goStr "notes") ||
      equalFold selector (goStr "notesPlain") then
    if item.notesPlain.isEmpty then .error (.noNotes item.title)
    else .ok item.notesPlain
  else
    match splitQualifiedLabel selector with
    | (sectionName, fieldLabel) =>
      if !sectionName.isEmpty then findFieldInSection item sectionName fieldLabel
      else findFieldByLabel item fieldLabel

/-! ## REST client (client.go), with the network abstracted -/

/-- Model of `findVaultByName`, over the outcome of the store query: a transport
or API error propagates; zero vaults is not-found, more than one is
ambiguous, exactly one is returned. -/
def findVaultByName (storeResult : Except SecErr (List vaultSummary))
    (name : Str) : Except SecErr vaultSummary :=
  match storeResult with
  | .error e => .error e
  | .ok vaults =>
    if vaults.length = 0 then .error (.vaultNotFound name)
    else if vaults.length > 1 then .error (.ambiguousVault name)
    else .ok (vaults.headD ⟨[], []⟩)

/-- Model of `findItemByTitle`, over the outcome of the store query, with the same
exactly-one discipline. -/
def findItemByTitle (storeResult : Except SecErr (List itemSummary))
    (vaultID title : Str) : Except SecErr itemSummary :=
  match storeResult with
  | .error e => .error e
  | .ok items =>
    if items.length = 0 then .error (.itemNotFound title vaultID)
    else if items.length > 1 then .error (.ambiguousItem title vaultID)
    else .ok (items.headD ⟨[], []⟩)

/-- Decoded JSON error payload of a non-2xx response body (`status`,
`message`); `none` models a body the JSON decoder rejects.  A payload
whose `message` field is absent decodes to the empty message. -/
structure errPayload where
  status : Nat
  message : Str
deriving DecidableEq, Repr

/-- Model of `apiError`: structured API error with status code and message. -/
structure apiError where
  statusCode : Nat
  message : Str
deriving DecidableEq, Repr

/-- An HTTP response as seen by the status-handling part of
`connectClient.get`: numeric status code, raw status line, and the
decoded error payload of the body (when decoding succeeds). -/
structure httpResponse where
  statusCode : Nat
  status : Str
  body : Option errPayload
deriving DecidableEq, Repr

/-- The response-status handling of `connectClient.get` (the tail of the
method, after the round trip): a 2xx status yields no API error, any
other status yields an `apiError` carrying the status code, with the
message taken from a decodable payload whose `message` is non-empty and
from the raw status line otherwise. -/
def connectClientGet (resp : httpResponse) : Option apiError :=
  if 200 ≤ resp.statusCode ∧ resp.statusCode < 300 then none
  else
    some { statusCode := resp.statusCode
           message :=
             match resp.body with
             | some p => if p.message.isEmpty then resp.status else p.message
             | none => resp.status }

/-- Model of `strings.Replace(s, old, new, -1)` for a one-byte `old`. -/
def replaceByte (pat : Nat) (rep : Bytes) (s : Bytes) : Bytes :=
  s.flatMap (fun b => if b = pat then rep else [b])

/-- Model of `escapeFilterValue`: double every backslash, then prefix every double
quote with a backslash (two sequential passes, as in the source). -/
def escapeFilterValue (s : Bytes) : Bytes :=
  replaceByte 34 [92, 34] (replaceByte 92 [92, 92] s)

/-- Left inverse of `escapeFilterValue`: a backslash must be followed by
a backslash or a double quote and escapes it; a bare double quote never
occurs in escaped output. -/
def unescapeFilterValue : Bytes → Option Bytes
  | [] => some []
  | 92 :: rest =>
    match rest with
    | c :: rest2 =>
      if c = 92 ∨ c = 34 then (unescapeFilterValue rest2).map (fun t => c :: t)
      else none
    | [] => none
  | 34 :: _ => none
  | b :: rest => (unescapeFilterValue rest).map (fun t => b :: t)

/-- Go's `shouldEscape(c, encodePathSegment)`: alphanumerics, the
unreserved marks `-._~` and the reserved characters other than
`/ ; , ?` pass through; every other byte is percent-encoded. -/
def shouldEscapeSegment (b : Nat) : Bool :=
  if (48 ≤ b ∧ b ≤ 57) ∨ (65 ≤ b ∧ b ≤ 90) ∨ (97 ≤ b ∧ b ≤ 122) then false
  else if b = 45 ∨ b = 95 ∨ b = 46 ∨ b = 126 then false
  else if b = 36 ∨ b = 38 ∨ b = 43 ∨ b = 58 ∨ b = 61 ∨ b = 64 then false
  else true

/-- Uppercase hexadecimal digit, as in Go's `url` escaping table. -/
def hexUpper (n : Nat) : Nat := if n < 10 then 48 + n else 55 + n

/-- Model of `url.PathEscape`: percent-encode every byte the path-segment mode
escapes. -/
def pathEscape (s : Bytes) : Bytes :=
  s.flatMap (fun b =>
    if shouldEscapeSegment b then [37, hexUpper (b / 16), hexUpper (b % 16)]
    else [b])

/-- Model of `escapePathSegment`: `url.PathEscape`, then replace every `+` (byte
43) by `%20` (bytes 37, 50, 48). -/
def escapePathSegment (s : Bytes) : Bytes :=
  replaceByte 43 [37, 50, 48] (pathEscape s)

/-- Hexadecimal digit value, either case (`url` unescaping). -/
def fromHexDigit (b : Nat) : Option Nat :=
  if 48 ≤ b ∧ b ≤ 57 then some (b - 48)
  else if 65 ≤ b ∧ b ≤ 70 then some (b - 55)
  else if 97 ≤ b ∧ b ≤ 102 then some (b - 87)
  else none

/-- Model of `url.PathUnescape`: `%XX` decodes to the byte `XX`, a `+` stays a
literal `+`, a malformed percent escape is an error. -/
def pathUnescape : Bytes → Option Bytes
  | [] => some []
  | 37 :: rest =>
    match rest with
    | h :: l :: rest2 =>
      match fromHexDigit h, fromHexDigit l with
      | some hv, some lv =>
        (pathUnescape rest2).map (fun t => (16 * hv + lv) :: t)
      | _, _ => none
    | _ => none
  | b :: rest => (pathUnescape rest).map (fun t => b :: t)

/-! ## Resolution engine (plugin.Find) -/

/-- The three client operations `plugin.Find` performs, abstracted as an
oracle so that the engine's control flow can be verified independently
of the network. -/
structure connectOracle where
  findVault : Str → Except SecErr vaultSummary
  findItem : Str → Str → Except SecErr itemSummary
  getItem : Str → Str → Except SecErr fullItem

/-- The pipeline of `plugin.Find` after the request checks: parse the
path, find the vault, find the item summary, load the item, select the
field, each failure wrapped with the identifier it concerns. -/
def resolvePath (c : connectOracle) (path : Str) : Except SecErr Str :=
  match parseSecretPath path with
  | .error e => .error e
  | .ok (vaultName, itemTitle, fieldSelector) =>
    match c.findVault vaultName with
    | .error e => .error (.lookupVault vaultName e)
    | .ok vault =>
      match c.findItem vault.id itemTitle with
      | .error e => .error (.lookupItem itemTitle e)
      | .ok itemSum =>
        match c.getItem vault.id itemSum.id with
          | .error e => .error (.loadItem itemTitle e)
          | .ok item => selectFieldValue item fieldSelector

/-- Model of `plugin.Find`: reject a nil request and an empty secret name, then
run the lookup pipeline and package the value with the requested name. -/
def Find (c : connectOracle) (req : Option secretRequest) :
    Except SecErr droneSecret :=
  match req with
  | none => .error .nilRequest
  | some req =>
    if req.name.isEmpty then .error .emptyName
    else
      match parseSecretPath req.path with
      | .error e => .error e
      | .ok (vaultName, itemTitle, fieldSelector) =>
        match c.findVault vaultName with
        | .error e => .error (.lookupVault vaultName e)
        | .ok vault =>
          match c.findItem vault.id itemTitle with
          | .error e => .error (.lookupItem itemTitle e)
          | .ok itemSum =>
            match c.getItem vault.id itemSum.id with
            | .error e => .error (.loadItem itemTitle e)
            | .ok item =>
              match selectFieldValue item fieldSelector with
              | .error e => .error e
              | .ok value =>
                .ok { name := req.name, data := value, pullRequest := false }

/-! ## Concrete sample data, mirroring the repository's test fixtures -/

/-- Build a field from literals (id and type are irrelevant to lookup). -/
def mkField (label value purpose : String) (sec : Option String) : itemField :=
  { id := [], label := goStr label, value := goStr value,
    purpose := goStr purpose, type := [],
    sectionRef := sec.map (fun s => ⟨goStr s⟩) }

/-- An item with exactly one purpose-tagged password. -/
def itemOnePassword : fullItem :=
  { id := goStr "i1", title := goStr "Sample",
    fields := [mkField "Username" "octocat" "" none,
      mkField "Password" "hunter2" "PASSWORD" none],
    sections := [], notesPlain := goStr "secret note" }

/-- An item with two purpose-tagged passwords. -/
def itemTwoPasswords : fullItem :=
  { id := goStr "i2", title := goStr "Two",
    fields := [mkField "P1" "a" "PASSWORD" none,
      mkField "P2" "b" "PASSWORD" none],
    sections := [], notesPlain := [] }

/-- An item with no purpose tag but a field labeled `Password`. -/
def itemLabeledPassword : fullItem :=
  { id := goStr "i3", title := goStr "Fallback",
    fields := [mkField "Password" "pw1" "" none],
    sections := [], notesPlain := [] }

/-- An item with one `Service Keys` section holding a `Token` field. -/
def itemSections : fullItem :=
  { id := goStr "i4", title := goStr "Svc",
    fields := [mkField "Username" "octocat" "" none,
      mkField "Token" "abc123" "" (some "s1")],
    sections := [⟨goStr "s1", goStr "Service Keys"⟩],
    notesPlain := [] }

/-- An item with two sections sharing the label `Service Keys`, each
holding a `Token` field. -/
def itemDupSections : fullItem :=
  { id := goStr "i5", title := goStr "Dup",
    fields := [mkField "Token" "t1" "" (some "s1"),
      mkField "Token" "t2" "" (some "s2")],
    sections := [⟨goStr "s1", goStr "Service Keys"⟩,
      ⟨goStr "s2", goStr "Service Keys"⟩],
    notesPlain := [] }

/-- A store oracle that answers every lookup like the repository's test
server. -/
def sampleOracle : connectOracle :=
  { findVault := fun _ => .ok ⟨goStr "v1", goStr "Production Vault"⟩
    findItem := fun _ _ => .ok ⟨goStr "i1", goStr "Database Credentials"⟩
    getItem := fun _ _ => .ok itemOnePassword }

/-! ## Helper lemmas -/

theorem breakAtChar_not_mem {c : Char} {l : List Char} (h : c ∉ l) :
    breakAtChar c l = none := by
  induction l with
  | nil => rfl
  | cons x xs ih =>
    simp only [List.mem_cons, not_or] at h
    simp [breakAtChar, Ne.symm h.1, ih h.2]

theorem breakAtChar_append {c : Char} {a b : List Char} (h : c ∉ a) :
    breakAtChar c (a ++ c :: b) = some (a, b) := by
  induction a with
  | nil => simp [breakAtChar]
  | cons x xs ih =>
    simp only [List.mem_cons, not_or] at h
    simp [breakAtChar, Ne.symm h.1, ih h.2]

theorem labelMatches_value_ne_nil {item : fullItem} {l : Str} {f : itemField}
    (h : f ∈ labelMatches item l) : f.value ≠ [] := by
  have hp := (List.mem_filter.mp h).2
  simp at hp
  exact hp.2

theorem findFieldByLabel_ok_ne_nil {item : fullItem} {l v : Str}
    (h : findFieldByLabel item l = .ok v) : v ≠ [] := by
  simp only [findFieldByLabel] at h
  rcases hm : labelMatches item (trimSpace l) with _ | ⟨f, _ | ⟨g, t⟩⟩ <;>
    rw [hm] at h
  · exact Except.noConfusion h
  · have hv := Except.ok.inj (h : Except.ok f.value = .ok v)
    have hmem : f ∈ labelMatches item (trimSpace l) := by simp [hm]
    exact hv ▸ labelMatches_value_ne_nil hmem
  · exact Except.noConfusion h

theorem defaultPasswordMatches_ne_nil {item : fullItem} {v : Str}
    (h : v ∈ defaultPasswordMatches item) : v ≠ [] := by
  simp only [defaultPasswordMatches, List.mem_map] at h
  obtain ⟨f, hf, rfl⟩ := h
  have hp := (List.mem_filter.mp hf).2
  simp at hp
  exact hp.2

theorem defaultPassword_ok_ne_nil {item : fullItem} {v : Str}
    (h : defaultPassword item = .ok v) : v ≠ [] := by
  unfold defaultPassword at h
  rcases hm : defaultPasswordMatches item with _ | ⟨a, _ | ⟨b, t⟩⟩ <;>
    rw [hm] at h
  · exact findFieldByLabel_ok_ne_nil h
  · have hv := Except.ok.inj (h : Except.ok a = .ok v)
    have hmem : a ∈ defaultPasswordMatches item := by simp [hm]
    exact hv ▸ defaultPasswordMatches_ne_nil hmem
  · exact Except.noConfusion h

theorem findFieldInSection_ok_ne_nil {item : fullItem} {secL fldL v : Str}
    (h : findFieldInSection item secL fldL = .ok v) : v ≠ [] := by
  unfold findFieldInSection at h
  by_cases he : (sectionMatchIDs item secL).isEmpty
  · rw [if_pos he] at h
    exact Except.noConfusion h
  · rw [if_neg he] at h
    rcases hm : sectionFieldMatches item secL fldL with _ | ⟨f, _ | ⟨g, t⟩⟩ <;>
      rw [hm] at h
    · exact Except.noConfusion h
    · have hv := Except.ok.inj (h : Except.ok f.value = .ok v)
      have hf : f ∈ sectionFieldMatches item secL fldL := by simp [hm]
      have hp := (List.mem_filter.mp hf).2
      rcases hsec : f.sectionRef with _ | sec <;> rw [hsec] at hp <;> simp at hp
      have hval : f.value ≠ [] := by tauto
      exact hv ▸ hval
    · exact Except.noConfusion h

theorem escapeFilterValue_nil : escapeFilterValue [] = [] := rfl

theorem escapeFilterValue_cons (b : Nat) (s : Bytes) :
    escapeFilterValue (b :: s) =
      (if b = 92 then [92, 92] else if b = 34 then [92, 34] else [b]) ++
        escapeFilterValue s := by
  by_cases h92 : b = 92 <;> by_cases h34 : b = 34 <;>
    simp [escapeFilterValue, replaceByte, h92, h34]

theorem unescape_escapeFilter (s : Bytes) :
    unescapeFilterValue (escapeFilterValue s) = some s := by
  induction s with
  | nil => rfl
  | cons b s ih =>
    rw [escapeFilterValue_cons]
    by_cases h92 : b = 92
    · subst h92
      simp [unescapeFilterValue, ih]
    · by_cases h34 : b = 34
      · subst h34
        simp [unescapeFilterValue, ih]
      · rw [if_neg h92, if_neg h34, List.singleton_append]
        simp [unescapeFilterValue, h92, h34, ih]

theorem hexUpper_ne_43 (n : Nat) : hexUpper n ≠ 43 := by
  unfold hexUpper
  split <;> omega

theorem fromHexDigit_hexUpper {n : Nat} (h : n < 16) :
    fromHexDigit (hexUpper n) = some n := by
  rcases Nat.lt_or_ge n 10 with h10 | h10
  · have hv : hexUpper n = 48 + n := if_pos h10
    rw [hv]
    unfold fromHexDigit
    rw [if_pos (by omega)]
    have he : 48 + n - 48 = n := by omega
    rw [he]
  · have hv : hexUpper n = 55 + n := if_neg (by omega)
    rw [hv]
    unfold fromHexDigit
    rw [if_neg (by omega), if_pos (by omega)]
    have he : 55 + n - 55 = n := by omega
    rw [he]

theorem escapePathSegment_cons {b : Nat} (t : Bytes) (hb : b ≠ 43) :
    escapePathSegment (b :: t) =
      (if shouldEscapeSegment b then [37, hexUpper (b / 16), hexUpper (b % 16)]
        else [b]) ++ escapePathSegment t := by
  by_cases h : shouldEscapeSegment b <;>
    simp [escapePathSegment, pathEscape, replaceByte, h, hb,
      hexUpper_ne_43 (b / 16), hexUpper_ne_43 (b % 16)]

theorem pathUnescape_escaped {b : Nat} (t : Bytes) (hb : b < 256) :
    pathUnescape (37 :: hexUpper (b / 16) :: hexUpper (b % 16) :: t) =
      (pathUnescape t).map (fun u => b :: u) := by
  have h1 : fromHexDigit (hexUpper (b / 16)) = some (b / 16) :=
    fromHexDigit_hexUpper (by omega)
  have h2 : fromHexDigit (hexUpper (b % 16)) = some (b % 16) :=
    fromHexDigit_hexUpper (by omega)
  have h3 : 16 * (b / 16) + b % 16 = b := by omega
  simp [pathUnescape, h1, h2, h3]

theorem pathUnescape_escapePathSegment (t : Bytes) (ht : ∀ b ∈ t, b < 256)
    (hplus : 43 ∉ t) : pathUnescape (escapePathSegment t) = some t := by
  induction t with
  | nil => rfl
  | cons b t ih =>
    have hb : b < 256 := ht b (List.mem_cons_self b t)
    have hb43 : b ≠ 43 := fun e => hplus (e ▸ List.mem_cons_self b t)
    have iht := ih (fun x hx => ht x (List.mem_cons_of_mem b hx))
      (fun hx => hplus (List.mem_cons_of_mem b hx))
    rw [escapePathSegment_cons t hb43]
    by_cases h : shouldEscapeSegment b
    · rw [if_pos h]
      simpa [iht] using pathUnescape_escaped (escapePathSegment t) hb
    · rw [if_neg h]
      have hb37 : b ≠ 37 := by
        intro e
        rw [e] at h
        exact h rfl
      rw [List.singleton_append]
      simp [pathUnescape, hb37, iht]

theorem foldAscii_eq_slash {c : Char} (h : foldAscii c = 47) : c = '/' := by
  unfold foldAscii at h
  split at h
  · omega
  · exact Char.ext (UInt32.toNat.inj h)

theorem equalFold_mem_slash {s t : Str} (he : equalFold s t = true)
    (hs : '/' ∈ s) : '/' ∈ t := by
  unfold equalFold at he
  have hmap : s.map foldAscii = t.map foldAscii := by simpa using he
  have h47 : (47 : Nat) ∈ t.map foldAscii := by
    rw [← hmap]
    exact List.mem_map.mpr ⟨'/', hs, rfl⟩
  obtain ⟨c, hc, hfc⟩ := List.mem_map.mp h47
  exact foldAscii_eq_slash hfc ▸ hc

/-! ## Claims -/

/-- C3: a parsed path is split on `/` into at most 3 components; the
two-segment form `vault/item` yields an empty field selector, and the
three-or-more-segment form yields as selector exactly the whole trimmed
remainder after the second `/`, not re-split, even when that remainder
itself contains `/`. -/
theorem parseSecretPath_splits (v i r : Str) (hv : '/' ∉ v) (hi : '/' ∉ i)
    (hv2 : trimSpace v ≠ []) (hi2 : trimSpace i ≠ []) :
    parseSecretPath (v ++ '/' :: i) = .ok (trimSpace v, trimSpace i, []) ∧
    parseSecretPath (v ++ '/' :: (i ++ '/' :: r)) =
      .ok (trimSpace v, trimSpace i, trimSpace r) := by
  constructor
  · simp [parseSecretPath, splitN3, breakAtChar_append hv,
      breakAtChar_not_mem hi, hv2, hi2]
  · simp [parseSecretPath, splitN3, breakAtChar_append hv,
      breakAtChar_append hi, hv2, hi2]

/-- Witness for C3 at a concrete path whose remainder contains `/`. -/
theorem parseSecretPath_splits_witness :
    parseSecretPath (goStr "Vault" ++ '/' :: goStr "Item") =
      .ok (trimSpace (goStr "Vault"), trimSpace (goStr "Item"), []) ∧
    parseSecretPath (goStr "Vault" ++ '/' :: (goStr "Item" ++ '/' :: goStr "a/b")) =
      .ok (trimSpace (goStr "Vault"), trimSpace (goStr "Item"),
        trimSpace (goStr "a/b")) :=
  parseSecretPath_splits (goStr "Vault") (goStr "Item") (goStr "a/b")
    (by decide) (by decide) (by decide) (by decide)

/-- C4: parsing fails exactly when the path splits into fewer than 2
components or the trimmed vault or item component is empty; in
particular `OnlyVault` fails (single segment) and `Vault/ /Field` fails
(blank item segment). -/
theorem parseSecretPath_error_iff :
    (∀ p : Str, (∃ e, parseSecretPath p = .error e) ↔
      ((splitN3 '/' p).length < 2 ∨
        trimSpace ((splitN3 '/' p).headD []) = [] ∨
        trimSpace (((splitN3 '/' p).drop 1).headD []) = [])) ∧
    parseSecretPath (goStr "OnlyVault") = .error .malformedPath ∧
    parseSecretPath (goStr "Vault/ /Field") = .error .emptyVaultOrItem := by
  refine ⟨fun p => ?_, rfl, rfl⟩
  rcases h1 : breakAtChar '/' p with _ | ⟨l, r⟩
  · simp [parseSecretPath, splitN3, h1]
  · rcases h2 : breakAtChar '/' r with _ | ⟨l2, r2⟩
    · by_cases hl : trimSpace l = [] <;> by_cases hr : trimSpace r = [] <;>
        simp [parseSecretPath, splitN3, h1, h2, hl, hr]
    · by_cases hl : trimSpace l = [] <;> by_cases hl2 : trimSpace l2 = [] <;>
        simp [parseSecretPath, splitN3, h1, h2, hl, hl2]

/-- C1: an empty selector performs the default password lookup — the
candidates are exactly the fields whose purpose is case-insensitively
`PASSWORD` with a non-empty value; one candidate returns its value,
several is an ambiguity error, none falls back to an unqualified label
lookup for `password`. -/
theorem selectFieldValue_default_password (item : fullItem) :
    (∀ v, v ∈ defaultPasswordMatches item ↔
      ∃ f, f ∈ item.fields ∧ equalFold f.purpose (goStr "PASSWORD") = true ∧
        f.value ≠ [] ∧ f.value = v) ∧
    (∀ v, defaultPasswordMatches item = [v] →
      selectFieldValue item [] = .ok v) ∧
    (1 < (defaultPasswordMatches item).length →
      selectFieldValue item [] = .error (.multiplePasswords item.title)) ∧
    (defaultPasswordMatches item = [] →
      selectFieldValue item [] = findFieldByLabel item (goStr "password")) := by
  refine ⟨fun v => ?_, fun v h => ?_, fun h => ?_, fun h => ?_⟩
  · simp only [defaultPasswordMatches, List.mem_map, List.mem_filter,
      Bool.and_eq_true, Bool.not_eq_eq_eq_not, Bool.not_true,
      List.isEmpty_eq_false]
    constructor
    · rintro ⟨f, ⟨hf, he, hv⟩, rfl⟩
      exact ⟨f, hf, he, hv, rfl⟩
    · rintro ⟨f, hf, he, hv, rfl⟩
      exact ⟨f, ⟨hf, he, hv⟩, rfl⟩
  · simp [selectFieldValue, defaultPassword, h]
  · rcases hm : defaultPasswordMatches item with _ | ⟨a, _ | ⟨b, t⟩⟩ <;>
      rw [hm] at h <;> simp at h
    simp [selectFieldValue, defaultPassword, hm]
  · simp [selectFieldValue, defaultPassword, h]

/-- Witness for C1 on the three concrete items: one tagged password,
two tagged passwords, and the untagged fallback. -/
theorem selectFieldValue_default_password_witness :
    selectFieldValue itemOnePassword [] = .ok (goStr "hunter2") ∧
    selectFieldValue itemTwoPasswords [] =
      .error (.multiplePasswords (goStr "Two")) ∧
    selectFieldValue itemLabeledPassword [] =
      findFieldByLabel itemLabeledPassword (goStr "password") :=
  ⟨(selectFieldValue_default_password itemOnePassword).2.1 _ (by decide),
    (selectFieldValue_default_password itemTwoPasswords).2.2.1 (by decide),
    (selectFieldValue_default_password itemLabeledPassword).2.2.2 (by decide)⟩

/-- C2: a section-qualified lookup resolves the ids of all sections
whose label case-insensitively equals the section part (a union across
sections sharing the label); no matching section is `SectionNotFound`;
among fields referencing one of those ids with a matching label and a
non-empty value, zero is `FieldNotFound`, one returns its value, and
more than one — in particular two same-labeled sections each holding a
match — is an ambiguity error. -/
theorem findFieldInSection_spec (item : fullItem) (secL fldL : Str) :
    (∀ sid, sid ∈ sectionMatchIDs item secL ↔
      ∃ s, s ∈ item.sections ∧ equalFold s.label secL = true ∧ s.id = sid) ∧
    (∀ f, f ∈ sectionFieldMatches item secL fldL ↔
      f ∈ item.fields ∧ ∃ sec, f.sectionRef = some sec ∧
        sec.id ∈ sectionMatchIDs item secL ∧
        equalFold f.label fldL = true ∧ f.value ≠ []) ∧
    (sectionMatchIDs item secL = [] →
      findFieldInSection item secL fldL =
        .error (.sectionNotFound secL item.title)) ∧
    (sectionMatchIDs item secL ≠ [] →
      (sectionFieldMatches item secL fldL = [] →
        findFieldInSection item secL fldL =
          .error (.fieldNotFoundInSection fldL secL)) ∧
      (∀ f, sectionFieldMatches item secL fldL = [f] →
        findFieldInSection item secL fldL = .ok f.value) ∧
      (1 < (sectionFieldMatches item secL fldL).length →
        findFieldInSection item secL fldL =
          .error (.duplicatedField fldL secL))) := by
  refine ⟨fun sid => ?_, fun f => ?_, fun h => ?_, fun h => ⟨fun h2 => ?_,
    fun f h2 => ?_, fun h2 => ?_⟩⟩
  · simp only [sectionMatchIDs, List.mem_map, List.mem_filter]
    constructor
    · rintro ⟨s, ⟨hs, he⟩, rfl⟩
      exact ⟨s, hs, he, rfl⟩
    · rintro ⟨s, hs, he, rfl⟩
      exact ⟨s, ⟨hs, he⟩, rfl⟩
  · simp only [sectionFieldMatches, List.mem_filter]
    rcases hf : f.sectionRef with _ | sec <;> simp [hf]
    tauto
  · simp [findFieldInSection, h]
  · simp [findFieldInSection, h, h2]
  · simp [findFieldInSection, h, h2]
  · rcases hm : sectionFieldMatches item secL fldL with _ | ⟨a, _ | ⟨b, t⟩⟩ <;>
      rw [hm] at h2 <;> simp at h2
    simp [findFieldInSection, h, hm]

/-- Witness for C2: the unique lookup succeeds, the duplicated-section
lookup fails as ambiguous, and a missing section label is reported. -/
theorem findFieldInSection_spec_witness :
    findFieldInSection itemSections (goStr "Service Keys") (goStr "Token") =
      .ok (goStr "abc123") ∧
    findFieldInSection itemDupSections (goStr "Service Keys") (goStr "Token") =
      .error (.duplicatedField (goStr "Token") (goStr "Service Keys")) ∧
    findFieldInSection itemSections (goStr "Nope") (goStr "Token") =
      .error (.sectionNotFound (goStr "Nope") (goStr "Svc")) :=
  ⟨((findFieldInSection_spec itemSections (goStr "Service Keys")
        (goStr "Token")).2.2.2 (by decide)).2.1
      (mkField "Token" "abc123" "" (some "s1")) (by decide),
    ((findFieldInSection_spec itemDupSections (goStr "Service Keys")
        (goStr "Token")).2.2.2 (by decide)).2.2 (by decide),
    (findFieldInSection_spec itemSections (goStr "Nope")
        (goStr "Token")).2.2.1 (by decide)⟩

/-- C5: `findVaultByName` and `findItemByTitle` return the single match
exactly when the store returns exactly one result; zero results yield a
not-found error naming the vault (item), several yield an ambiguity
error — never a silently picked element. -/
theorem findByName_exactly_one (name vaultID title : Str)
    (vaults : List vaultSummary) (items : List itemSummary) :
    (vaults = [] →
      findVaultByName (.ok vaults) name = .error (.vaultNotFound name)) ∧
    (∀ v, vaults = [v] → findVaultByName (.ok vaults) name = .ok v) ∧
    (1 < vaults.length →
      findVaultByName (.ok vaults) name = .error (.ambiguousVault name)) ∧
    (items = [] →
      findItemByTitle (.ok items) vaultID title =
        .error (.itemNotFound title vaultID)) ∧
    (∀ it, items = [it] →
      findItemByTitle (.ok items) vaultID title = .ok it) ∧
    (1 < items.length →
      findItemByTitle (.ok items) vaultID title =
        .error (.ambiguousItem title vaultID)) := by
  refine ⟨fun h => ?_, fun v h => ?_, fun h => ?_, fun h => ?_,
    fun it h => ?_, fun h => ?_⟩
  · subst h; simp [findVaultByName]
  · subst h; simp [findVaultByName]
  · have h0 : vaults.length ≠ 0 := by omega
    simp [findVaultByName, h, h0]
  · subst h; simp [findItemByTitle]
  · subst h; simp [findItemByTitle]
  · have h0 : items.length ≠ 0 := by omega
    simp [findItemByTitle, h, h0]

/-- Witness for C5 on concrete zero-, one- and two-element store
results. -/
theorem findByName_exactly_one_witness :
    findVaultByName (.ok []) (goStr "V") = .error (.vaultNotFound (goStr "V")) ∧
    findVaultByName (.ok [⟨goStr "id1", goStr "V"⟩]) (goStr "V") =
      .ok ⟨goStr "id1", goStr "V"⟩ ∧
    findVaultByName
        (.ok [⟨goStr "id1", goStr "V"⟩, ⟨goStr "id2", goStr "V"⟩])
        (goStr "V") = .error (.ambiguousVault (goStr "V")) ∧
    findItemByTitle (.ok []) (goStr "id1") (goStr "T") =
      .error (.itemNotFound (goStr "T") (goStr "id1")) ∧
    findItemByTitle
        (.ok [⟨goStr "a", goStr "T"⟩, ⟨goStr "b", goStr "T"⟩])
        (goStr "id1") (goStr "T") =
      .error (.ambiguousItem (goStr "T") (goStr "id1")) :=
  ⟨(findByName_exactly_one (goStr "V") (goStr "id1") (goStr "T") [] []).1 rfl,
    (findByName_exactly_one (goStr "V") (goStr "id1") (goStr "T")
        [⟨goStr "id1", goStr "V"⟩] []).2.1 _ rfl,
    (findByName_exactly_one (goStr "V") (goStr "id1") (goStr "T")
        [⟨goStr "id1", goStr "V"⟩, ⟨goStr "id2", goStr "V"⟩] []).2.2.1
      (by decide),
    (findByName_exactly_one (goStr "V") (goStr "id1") (goStr "T") [] []).2.2.2.1
      rfl,
    (findByName_exactly_one (goStr "V") (goStr "id1") (goStr "T") []
        [⟨goStr "a", goStr "T"⟩, ⟨goStr "b", goStr "T"⟩]).2.2.2.2.2
      (by decide)⟩

/-- C6: a non-2xx response maps to a structured API error carrying the
numeric status code, with the message from the decoded payload when it
carries one and from the raw status line otherwise; a 2xx response never
produces this error. -/
theorem connectClientGet_status (resp : httpResponse) :
    (200 ≤ resp.statusCode → resp.statusCode < 300 →
      connectClientGet resp = none) ∧
    (¬(200 ≤ resp.statusCode ∧ resp.statusCode < 300) →
      (∀ p, resp.body = some p → p.message ≠ [] →
        connectClientGet resp = some ⟨resp.statusCode, p.message⟩) ∧
      (resp.body = none →
        connectClientGet resp = some ⟨resp.statusCode, resp.status⟩) ∧
      (∀ p, resp.body = some p → p.message = [] →
        connectClientGet resp = some ⟨resp.statusCode, resp.status⟩)) := by
  refine ⟨fun h1 h2 => ?_, fun h => ⟨fun p hp hm => ?_, fun hp => ?_,
    fun p hp hm => ?_⟩⟩ <;>
    simp_all [connectClientGet]

/-- Witness for C6: a 429 with payload message `rate limited`, a 500
with an undecodable body, and a plain 200. -/
theorem connectClientGet_status_witness :
    connectClientGet ⟨429, goStr "429 Too Many Requests",
        some ⟨429, goStr "rate limited"⟩⟩ =
      some ⟨429, goStr "rate limited"⟩ ∧
    connectClientGet ⟨500, goStr "500 Internal Server Error", none⟩ =
      some ⟨500, goStr "500 Internal Server Error"⟩ ∧
    connectClientGet ⟨200, goStr "200 OK", none⟩ = none :=
  ⟨((connectClientGet_status ⟨429, goStr "429 Too Many Requests",
        some ⟨429, goStr "rate limited"⟩⟩).2 (by decide)).1 _ rfl (by decide),
    ((connectClientGet_status ⟨500, goStr "500 Internal Server Error",
        none⟩).2 (by decide)).2.1 rfl,
    (connectClientGet_status ⟨200, goStr "200 OK", none⟩).1 (by decide)
      (by decide)⟩

/-- C7: whenever field selection succeeds, the returned value is a
non-empty string — empty values are skipped by every lookup and empty
notes are rejected, so an empty value is never returned as a match. -/
theorem selectFieldValue_ok_ne_nil (item : fullItem) (sel v : Str)
    (h : selectFieldValue item sel = .ok v) : v ≠ [] := by
  unfold selectFieldValue at h
  by_cases h1 : sel.isEmpty
  · rw [if_pos h1] at h
    exact defaultPassword_ok_ne_nil h
  · rw [if_neg h1] at h
    by_cases h2 : (equalFold sel (goStr "notes") ||
        equalFold sel (goStr "notesPlain")) = true
    · rw [if_pos h2] at h
      by_cases h3 : item.notesPlain.isEmpty
      · rw [if_pos h3] at h
        exact Except.noConfusion h
      · rw [if_neg h3] at h
        have hv := Except.ok.inj h
        simp only [Bool.not_eq_true, List.isEmpty_eq_false] at h3
        exact hv ▸ h3
    · rw [if_neg h2] at h
      rcases hq : splitQualifiedLabel sel with ⟨secName, fldLabel⟩
      rw [hq] at h
      by_cases h4 : secName.isEmpty
      · simp only [h4, Bool.not_true, Bool.false_eq_true, if_false] at h
        exact findFieldByLabel_ok_ne_nil h
      · simp only [Bool.not_eq_true] at h4
        simp only [h4, Bool.not_false, if_true] at h
        exact findFieldInSection_ok_ne_nil h

/-- Witness for C7 at the default-password lookup of the sample item. -/
theorem selectFieldValue_ok_ne_nil_witness : goStr "hunter2" ≠ [] :=
  selectFieldValue_ok_ne_nil itemOnePassword [] (goStr "hunter2") rfl

/-- C8 (amended): filter-value escaping is injective and recoverable,
and path-identifier escaping percent-decodes back to the original for
every byte string that contains no `+` (byte 43); a `+` byte is sent as
`%20`, which decodes to a space instead. -/
theorem escaping_preserves_value (s1 s2 t : Bytes) (ht : ∀ b ∈ t, b < 256)
    (hplus : 43 ∉ t) :
    (escapeFilterValue s1 = escapeFilterValue s2 → s1 = s2) ∧
    unescapeFilterValue (escapeFilterValue s1) = some s1 ∧
    pathUnescape (escapePathSegment t) = some t := by
  refine ⟨fun h => ?_, unescape_escapeFilter s1,
    pathUnescape_escapePathSegment t ht hplus⟩
  have h1 := unescape_escapeFilter s1
  have h2 := unescape_escapeFilter s2
  rw [h, h2] at h1
  exact (Option.some.inj h1).symm

/-- Counterexample to C8 as stated: a path identifier consisting of the
single reserved byte `+` (43) is escaped to `%20`, which percent-decodes
to a space (32), not back to `+`. -/
theorem escaping_plus_counterexample :
    escapePathSegment [43] = [37, 50, 48] ∧
    pathUnescape (escapePathSegment [43]) = some [32] ∧
    pathUnescape (escapePathSegment [43]) ≠ some [43] := by
  refine ⟨rfl, rfl, ?_⟩
  intro h
  simpa using Option.some.inj h

/-- Witness for the amended C8 on concrete bytes containing a backslash,
a double quote and reserved path characters (but no `+`). -/
theorem escaping_preserves_value_witness :
    (escapeFilterValue [92, 34, 97] = escapeFilterValue [92, 34, 97] →
      ([92, 34, 97] : Bytes) = [92, 34, 97]) ∧
    unescapeFilterValue (escapeFilterValue [92, 34, 97]) = some [92, 34, 97] ∧
    pathUnescape (escapePathSegment [97, 32, 47, 63, 98]) =
      some [97, 32, 47, 63, 98] :=
  escaping_preserves_value [92, 34, 97] [92, 34, 97] [97, 32, 47, 63, 98]
    (by decide) (by decide)

/-- C9: `Find` rejects a nil request and an empty secret name for every
oracle and path (so before any parsing or store lookup), and with a
non-empty name it returns exactly the path-resolution outcome packaged
with the original requested name — the name never influences which value
is looked up. -/
theorem Find_request_checks (c : connectOracle) (p n : Str) :
    Find c none = .error .nilRequest ∧
    Find c (some ⟨[], p⟩) = .error .emptyName ∧
    (n ≠ [] → Find c (some ⟨n, p⟩) =
      (resolvePath c p).map (fun v => ⟨n, v, false⟩)) := by
  refine ⟨rfl, rfl, fun hn => ?_⟩
  have hne : n.isEmpty = false := List.isEmpty_eq_false.mpr hn
  unfold Find resolvePath
  simp only [hne, Bool.false_eq_true, if_false]
  rcases hp : parseSecretPath p with e | ⟨vn, it, fs⟩
  · simp only [hp]
    rfl
  · simp only [hp]
    rcases hv : c.findVault vn with e | vault
    · simp only [hv]
      rfl
    · simp only [hv]
      rcases hi : c.findItem vault.id it with e | itemSum
      · simp only [hi]
        rfl
      · simp only [hi]
        rcases hg : c.getItem vault.id itemSum.id with e | item
        · simp only [hg]
          rfl
        · simp only [hg]
          rcases hs : selectFieldValue item fs with e | v <;>
            simp only [hs] <;> rfl

/-- Witness for C9 against the sample oracle, at the test fixture's
request. -/
theorem Find_request_checks_witness :
    Find sampleOracle
        (some ⟨goStr "db_password",
          goStr "Production Vault/Database Credentials"⟩) =
      (resolvePath sampleOracle
          (goStr "Production Vault/Database Credentials")).map
        (fun v => ⟨goStr "db_password", v, false⟩) :=
  (Find_request_checks sampleOracle
    (goStr "Production Vault/Database Credentials")
    (goStr "db_password")).2.2 (by decide)

/-- C10: a non-empty selector containing `/` whose part before the first
`/` trims to the empty string is treated as an unqualified label lookup
for the part after the `/`, not as a section-qualified lookup. -/
theorem selectFieldValue_blank_section (item : fullItem) (pre post : Str)
    (hpre : trimSpace pre = []) (hslash : '/' ∉ pre) :
    selectFieldValue item (pre ++ '/' :: post) =
      findFieldByLabel item (trimSpace post) := by
  have hsel : '/' ∈ pre ++ '/' :: post :=
    List.mem_append_right _ (List.mem_cons_self _ _)
  have hne : (pre ++ '/' :: post).isEmpty = false := by simp
  have hn1 : equalFold (pre ++ '/' :: post) (goStr "notes") = false := by
    refine Bool.eq_false_iff.mpr (fun hq => ?_)
    exact absurd (equalFold_mem_slash hq hsel) (by decide)
  have hn2 : equalFold (pre ++ '/' :: post) (goStr "notesPlain") = false := by
    refine Bool.eq_false_iff.mpr (fun hq => ?_)
    exact absurd (equalFold_mem_slash hq hsel) (by decide)
  have hq : splitQualifiedLabel (pre ++ '/' :: post) = ([], trimSpace post) := by
    simp [splitQualifiedLabel, breakAtChar_append hslash, hpre]
  simp [selectFieldValue, hne, hn1, hn2, hq]

/-- Witness for C10: the selector `" /Token"` behaves as the unqualified
lookup for `Token` on the sectioned sample item. -/
theorem selectFieldValue_blank_section_witness :
    selectFieldValue itemSections (goStr " " ++ '/' :: goStr "Token") =
      findFieldByLabel itemSections (trimSpace (goStr "Token")) :=
  selectFieldValue_blank_section itemSections (goStr " ") (goStr "Token")
    (by decide) (by decide)

end DroneOnePassword
